import Mathlib

/-!
Shallow embedding of the interactive drawing canvas of this repository
(`src/components/DrawingCanvas.tsx`, a fabric.js-based React component), together with
theorems settling the specification claims about it.

The component's mutable refs (`fabricCanvasRef`, `historyRef`, `isDrawingRef`,
`startPointRef`, `currentShapeRef`) become fields of an explicit state record; each event
handler and imperative-handle operation becomes a pure state-transition function.  Pixel
quantities are rationals (JavaScript numbers, no wraparound relevant here); colors and
image sources are kept as strings.  The asynchronous `fabric.Image.fromURL` background-image
load is modelled as completing synchronously, which is the behavior all claims address.
-/

namespace DrawingCanvas

/-- A point in surface-local coordinates, as returned by `canvas.getPointer`. -/
structure Pt where
  x : ℚ
  y : ℚ
deriving DecidableEq, Repr

/-- Fabric `originX`/`originY` values used by the shape handlers. -/
inductive Orig
  | left
  | right
  | top
  | bottom
  | center
deriving DecidableEq, Repr

/-- The drawing tools (`DrawTool` in `src/types`). -/
inductive DrawTool
  | brush
  | rectangle
  | circle
  | arrow
deriving DecidableEq, Repr

/-- A fabric object on the canvas, as created and mutated by the shape handlers.
The arrow is a `fabric.Group` of a line and a triangular head; the head's fabric rotation
angle is `atan2(dir.y, dir.x) * 180 / PI + 90` degrees, represented here by the direction
vector `headDir` (creation with `angle: -90` corresponds to `headDir = (-1, 0)`, since
`atan2(0, -1) = 180°` and `180 + 90 ≡ -90 (mod 360)`). -/
inductive FShape
  | rect (l t : ℚ) (originX originY : Orig) (w h : ℚ)
      (stroke fill : String) (strokeWidth : ℚ)
  | ellipse (l t : ℚ) (originX originY : Orig) (rx ry : ℚ)
      (stroke fill : String) (strokeWidth : ℚ)
  | arrowGroup (x1 y1 x2 y2 : ℚ) (headLeft headTop : ℚ) (headW headH : ℚ)
      (headDir : Pt) (stroke : String) (strokeWidth : ℚ)
  | path (stroke : String) (strokeWidth : ℚ) (points : List Pt)
deriving DecidableEq, Repr

/-- The serialization produced by `canvas.toJSON()` and consumed by `loadFromJSON`:
the object list plus the background color and background-image source. -/
structure Snapshot where
  objects : List FShape
  bgColor : String
  bgImage : Option String
deriving DecidableEq, Repr

/-- The fabric canvas: pixel dimensions, background specification and display list. -/
structure Canvas where
  width : ℚ
  height : ℚ
  backgroundColor : String
  backgroundImage : Option String
  objects : List FShape
deriving DecidableEq, Repr

/-- `canvas.toJSON()`. -/
def Canvas.toJSON (c : Canvas) : Snapshot :=
  ⟨c.objects, c.backgroundColor, c.backgroundImage⟩

/-- `new fabric.Canvas(el)` before any sizing: empty display list, default background. -/
def Canvas.fresh : Canvas :=
  ⟨0, 0, "", none, []⟩

/-- `canvas.clear()`: drop all objects and reset the background. -/
def Canvas.clearAll (c : Canvas) : Canvas :=
  { c with objects := [], backgroundColor := "", backgroundImage := none }

/-- The props consumed by the component that the claims depend on; `aspectW` and `aspectH`
are the two numbers obtained from `aspectRatio.split(':').map(Number)`. -/
structure Props where
  tool : DrawTool
  brushSize : ℚ
  strokeColor : String
  fillColor : String
  aspectW : ℚ
  aspectH : ℚ
  backgroundColor : String
  backgroundImage : Option String
deriving DecidableEq, Repr

/-- The component's mutable refs: `fabricCanvasRef`, `historyRef`, `isDrawingRef`,
`startPointRef`, and whether `currentShapeRef` holds the last object of the display list
(the shape appended by `handleMouseDown`). -/
structure CompState where
  fabricCanvas : Option Canvas
  history : List Snapshot
  isDrawing : Bool
  startPoint : Option Pt
  currentShape : Bool
deriving DecidableEq, Repr

/-- `const MAX_UNDO_STEPS = 20` (line 18). -/
def MAX_UNDO_STEPS : ℕ := 20

/-- The history effect of `saveState` (lines 47-50): `push`, then `shift` the oldest entry
when the length exceeds `MAX_UNDO_STEPS`. -/
def pushSnap (h : List Snapshot) (s : Snapshot) : List Snapshot :=
  if MAX_UNDO_STEPS < (h ++ [s]).length then (h ++ [s]).tail else h ++ [s]

/-- `saveState` (lines 43-52): if a canvas exists, push `canvas.toJSON()` onto the bounded
history; otherwise do nothing. -/
def saveState (s : CompState) : CompState :=
  match s.fabricCanvas with
  | none => s
  | some c => { s with history := pushSnap s.history c.toJSON }

/-- The sizing block of `updateCanvasView` (lines 60-70): start from the container width,
derive the height from the aspect ratio, and clamp to the container height when the derived
height overflows. -/
def computeSurfaceSize (aspectW aspectH containerW containerH : ℚ) : ℚ × ℚ :=
  let newW := containerW
  let newH := containerW / (aspectW / aspectH)
  if containerH < newH then (containerH * (aspectW / aspectH), containerH) else (newW, newH)

/-- `updateCanvasView` (lines 54-92): resize the canvas to the computed surface size and
re-apply the background color and (stretched) background image from the current props.
The history ref is not touched. -/
def updateCanvasView (p : Props) (containerW containerH : ℚ) (s : CompState) : CompState :=
  match s.fabricCanvas with
  | none => s
  | some c =>
    let wh := computeSurfaceSize p.aspectW p.aspectH containerW containerH
    { s with fabricCanvas := some { c with
      width := wh.1
      height := wh.2
      backgroundColor := p.backgroundColor
      backgroundImage := p.backgroundImage } }

/-- The mount effect (lines 94-109) followed by the prop-change effect (lines 114-118):
create a fresh canvas, reset the history ref, run `updateCanvasView` and `saveState`,
then run `updateCanvasView` once more. -/
def mount (p : Props) (containerW containerH : ℚ) : CompState :=
  let s0 : CompState := ⟨some Canvas.fresh, [], false, none, false⟩
  updateCanvasView p containerW containerH
    (saveState (updateCanvasView p containerW containerH s0))

/-- The shape constructed by `handleMouseDown`'s `switch (tool)` (lines 217-247); `none`
for `brush` (the shape-drawing effect is not attached in brush mode, line 197). -/
def mkShape (p : Props) (pt : Pt) : Option FShape :=
  match p.tool with
  | .rectangle =>
    some (.rect pt.x pt.y .left .top 0 0 p.strokeColor p.fillColor p.brushSize)
  | .circle =>
    some (.ellipse pt.x pt.y .left .top 0 0 p.strokeColor p.fillColor p.brushSize)
  | .arrow =>
    some (.arrowGroup pt.x pt.y pt.x pt.y pt.x pt.y (p.brushSize * 3) (p.brushSize * 3)
      ⟨-1, 0⟩ p.strokeColor p.brushSize)
  | .brush => none

/-- `handleMouseDown` (lines 199-252): set the drawing flag and start point, build the
tool's shape and `canvas.add` it (appending to the display list). -/
def handleMouseDown (p : Props) (pt : Pt) (s : CompState) : CompState :=
  match s.fabricCanvas with
  | none => s
  | some c =>
    let s1 := { s with isDrawing := true, startPoint := some pt }
    match mkShape p pt with
    | none => s1
    | some sh =>
      { s1 with currentShape := true,
                fabricCanvas := some { c with objects := c.objects ++ [sh] } }

/-- The in-place `shape.set` mutation performed by `handleMouseMove` (lines 260-283) for
each tool, given the gesture start point and the current pointer. -/
def updateShape (start pt : Pt) (sh : FShape) : FShape :=
  match sh with
  | .rect l t _ _ _ _ st f sw =>
    .rect l t (if pt.x < start.x then .right else .left)
      (if pt.y < start.y then .bottom else .top)
      |pt.x - start.x| |pt.y - start.y| st f sw
  | .ellipse _ _ _ _ _ _ st f sw =>
    .ellipse (start.x + (pt.x - start.x) / 2) (start.y + (pt.y - start.y) / 2)
      .center .center (|pt.x - start.x| / 2) (|pt.y - start.y| / 2) st f sw
  | .arrowGroup x1 y1 _ _ _ _ hw hh _ st sw =>
    .arrowGroup x1 y1 pt.x pt.y pt.x pt.y hw hh ⟨pt.x - start.x, pt.y - start.y⟩ st sw
  | .path st sw ps => .path st sw ps

/-- `handleMouseMove` (lines 254-285): a no-op unless a gesture is active with a live
current shape and start point; otherwise mutate the current shape (the last object of the
display list) in place.  It never touches the history. -/
def handleMouseMove (pt : Pt) (s : CompState) : CompState :=
  match s.fabricCanvas, s.startPoint with
  | some c, some start =>
    if s.isDrawing && s.currentShape then
      match c.objects.getLast? with
      | some sh =>
        { s with fabricCanvas := some (
            { c with objects := c.objects.dropLast ++ [updateShape start pt sh] }) }
      | none => s
    else s
  | _, _ => s

/-- `handleMouseUp` (lines 287-295): unconditionally reset the drawing flag, current shape
and start point, then call `saveState`. -/
def handleMouseUp (s : CompState) : CompState :=
  saveState { s with isDrawing := false, currentShape := false, startPoint := none }

/-- Fold `handleMouseMove` over a list of pointer positions. -/
def runMoves (moves : List Pt) (s : CompState) : CompState :=
  moves.foldl (fun st pt => handleMouseMove pt st) s

/-- One complete shape-tool gesture: pointer-down at `start`, the given pointer-moves,
then pointer-up. -/
def shapeGesture (p : Props) (start : Pt) (moves : List Pt) (s : CompState) : CompState :=
  handleMouseUp (runMoves moves (handleMouseDown p start s))

/-- One complete brush gesture: fabric free drawing (`isDrawingMode`) strokes the canvas
during the moves and, at pointer-up, adds the finished `fabric.Path` object and fires
`path:created`.  No handler runs on that event: the effect that would register
`canvas.on('path:created', saveState)` (line 301) returns early when the tool is `brush`
(line 197) and its previous registrations were removed by the effect cleanup, so in brush
mode the event has no listener and the history ref is never touched. -/
def brushGesture (p : Props) (points : List Pt) (s : CompState) : CompState :=
  match s.fabricCanvas with
  | none => s
  | some c =>
    { s with fabricCanvas := some (
      { c with objects := c.objects ++ [.path p.strokeColor p.brushSize points] }) }

/-- The raster encoded by `toDataURL`: the composite of background color, stretched
background image and display list at the canvas dimensions. -/
structure Raster where
  width : ℚ
  height : ℚ
  bgColor : String
  bgImage : Option String
  content : List FShape
deriving DecidableEq, Repr

/-- Result of `exportImage`: the PNG data URL of the composite, or `''` when no canvas
exists (`fabricCanvasRef.current?.toDataURL(...) || ''`, line 314). -/
inductive ExportResult
  | emptyString
  | png (r : Raster)
deriving DecidableEq, Repr

/-- The composite painted by the canvas (and serialized by `toDataURL`). -/
def Canvas.compose (c : Canvas) : Raster :=
  ⟨c.width, c.height, c.backgroundColor, c.backgroundImage, c.objects⟩

/-- `exportImage` (lines 313-315). -/
def exportImage (s : CompState) : ExportResult :=
  match s.fabricCanvas with
  | none => .emptyString
  | some c => .png c.compose

/-- `clear` (lines 316-324): if a canvas exists, `canvas.clear()`, re-apply the view
(`updateCanvasView`), then `saveState`.  The history ref itself is not reset. -/
def clear (p : Props) (containerW containerH : ℚ) (s : CompState) : CompState :=
  match s.fabricCanvas with
  | none => s
  | some c =>
    saveState (updateCanvasView p containerW containerH
      { s with fabricCanvas := some c.clearAll })

/-- `undo` (lines 325-335): if a canvas exists and the history holds more than one entry,
pop the current state, `loadFromJSON` the new last entry, and run `updateCanvasView` from
the load callback. -/
def undo (p : Props) (containerW containerH : ℚ) (s : CompState) : CompState :=
  match s.fabricCanvas with
  | none => s
  | some c =>
    if 1 < s.history.length then
      match s.history.dropLast.getLast? with
      | some snap =>
        updateCanvasView p containerW containerH
          { s with history := s.history.dropLast,
                   fabricCanvas := some { c with
                     objects := snap.objects,
                     backgroundColor := snap.bgColor,
                     backgroundImage := snap.bgImage } }
      | none => { s with history := s.history.dropLast }
    else s

/-- A primitive emitted when fabric paints an object of the display list. -/
inductive Prim
  | seg (a b : Pt) (stroke : String) (strokeWidth : ℚ)
  | tri (center : Pt) (w h : ℚ) (dir : Pt) (fill : String)
  | other (sh : FShape)
deriving DecidableEq, Repr

/-- How fabric paints an object: the arrow group renders as its line segment followed by
its triangular head (the head being rotated to `atan2(dir.y, dir.x) + 90` degrees). -/
def renderShape : FShape → List Prim
  | .arrowGroup x1 y1 x2 y2 hl ht hw hh dir st sw =>
    [.seg ⟨x1, y1⟩ ⟨x2, y2⟩ st sw, .tri ⟨hl, ht⟩ hw hh dir st]
  | sh => [.other sh]

/-- Squared Euclidean distance between two points. -/
def sqDist (a b : Pt) : ℚ :=
  (a.x - b.x) ^ 2 + (a.y - b.y) ^ 2

/-- The arrowhead length asserted by the specification: `max(10, brushSize * 2.5)`. -/
def specHeadLen (brushSize : ℚ) : ℚ :=
  max 10 (brushSize * 5 / 2)

/-- The shape left on the canvas by an arrow gesture from `start` to `e`: the object built
by `handleMouseDown` updated by `handleMouseMove` at the final pointer position. -/
def arrowShapeAt (p : Props) (start e : Pt) : Option FShape :=
  (mkShape p start).map (updateShape start e)

/-- The primitives fabric paints for the gesture's shape. -/
def arrowPrims (p : Props) (start e : Pt) : List Prim :=
  match arrowShapeAt p start e with
  | some sh => renderShape sh
  | none => []

/-- Formalization of claim C8's description of the rendered arrow: the painted primitives
are exactly the main line plus two wing segments drawn from the end point, each of the
claimed head length `max(10, brushSize * 2.5)` (the `± π/7` angle clause of the claim is
dropped, which only weakens the statement being refuted). -/
def arrowClaim (p : Props) (start e : Pt) : Prop :=
  ∃ w1 w2 : Pt,
    arrowPrims p start e =
      [.seg start e p.strokeColor p.brushSize,
       .seg e w1 p.strokeColor p.brushSize,
       .seg e w2 p.strokeColor p.brushSize] ∧
    sqDist e w1 = specHeadLen p.brushSize ^ 2 ∧
    sqDist e w2 = specHeadLen p.brushSize ^ 2

/-- Componentwise sum of two points. -/
def ptAdd (a b : Pt) : Pt :=
  ⟨a.x + b.x, a.y + b.y⟩

/-- Fabric's rotation by `atan2(dir.y, dir.x) + 90` degrees applied to a local offset `v`:
with `r = |dir|` that rotation has cosine `-dir.y / r` and sine `dir.x / r`.  `r` is passed
explicitly; theorems use it at inputs where `r ^ 2 = dir.x ^ 2 + dir.y ^ 2` and `0 ≤ r`. -/
def rotByDir (dir : Pt) (r : ℚ) (v : Pt) : Pt :=
  ⟨(-dir.y * v.x - dir.x * v.y) / r, (dir.x * v.x - dir.y * v.y) / r⟩

/-- The three vertices of the rendered triangular head: a fabric `Triangle` of width `w`
and height `h` with center origin has local vertices `(0, -h/2)`, `(-w/2, h/2)` and
`(w/2, h/2)`. -/
def triVertices (c : Pt) (w h : ℚ) (dir : Pt) (r : ℚ) : List Pt :=
  [ptAdd c (rotByDir dir r ⟨0, -(h / 2)⟩),
   ptAdd c (rotByDir dir r ⟨-(w / 2), h / 2⟩),
   ptAdd c (rotByDir dir r ⟨w / 2, h / 2⟩)]

/-- Concrete props used by witnesses: rectangle tool, 1:1 aspect, white background. -/
def pRect : Props :=
  ⟨.rectangle, 4, "#000000", "transparent", 1, 1, "#ffffff", none⟩

/-- Concrete props used by the arrow theorems: arrow tool with brush size 2. -/
def pArrow : Props :=
  ⟨.arrow, 2, "#000000", "transparent", 16, 9, "#ffffff", none⟩

/-- Concrete props with the brush tool selected. -/
def pBrush : Props :=
  ⟨.brush, 4, "#000000", "transparent", 1, 1, "#ffffff", none⟩

/-- Props equal to `pRect` except for a different background color. -/
def pNewBg : Props :=
  ⟨.rectangle, 4, "#000000", "transparent", 1, 1, "#112233", none⟩

/-- The canvas produced by mounting with `pRect` in a 100 × 100 container. -/
def canvasW : Canvas :=
  ⟨100, 100, "#ffffff", none, []⟩

/-- A background-only snapshot fixture. -/
def snapA : Snapshot :=
  ⟨[], "#ffffff", none⟩

/-- A snapshot fixture holding one committed brush path. -/
def snapB : Snapshot :=
  ⟨[.path "#000000" 4 [⟨1, 1⟩]], "#ffffff", none⟩

/-- An idle state whose history has exactly one entry. -/
def sOne : CompState :=
  ⟨some canvasW, [snapA], false, none, false⟩

/-- An idle state whose history has two entries. -/
def sTwo : CompState :=
  ⟨some canvasW, [snapA, snapB], false, none, false⟩

/-- A state with no canvas mounted. -/
def sNoCanvas : CompState :=
  ⟨none, [snapA], false, none, false⟩

/-- `n` pairwise distinct snapshots, used to exercise the bounded history. -/
def snapshotSeq (n : ℕ) : List Snapshot :=
  (List.range n).map fun i => ⟨[.path "" 0 (List.replicate i ⟨0, 0⟩)], "", none⟩

/-! ### Helper lemmas about the bounded history -/

theorem pushSnap_length (h : List Snapshot) (s : Snapshot)
    (hle : h.length ≤ MAX_UNDO_STEPS) :
    (pushSnap h s).length = min (h.length + 1) MAX_UNDO_STEPS := by
  unfold pushSnap MAX_UNDO_STEPS at *
  split
  · next hc =>
    simp only [List.length_tail, List.length_append, List.length_singleton] at *
    omega
  · next hc =>
    simp only [List.length_append, List.length_singleton] at *
    omega

theorem pushSnap_length_le (h : List Snapshot) (s : Snapshot)
    (hle : h.length ≤ MAX_UNDO_STEPS) :
    (pushSnap h s).length ≤ MAX_UNDO_STEPS := by
  rw [pushSnap_length h s hle]
  unfold MAX_UNDO_STEPS
  omega

theorem pushSnap_eq_drop (h : List Snapshot) (s : Snapshot)
    (hle : h.length ≤ MAX_UNDO_STEPS) :
    pushSnap h s = (h ++ [s]).drop (h.length + 1 - MAX_UNDO_STEPS) := by
  unfold pushSnap MAX_UNDO_STEPS at *
  split
  · next hc =>
    simp only [List.length_append, List.length_singleton] at hc
    rw [show h.length + 1 - 20 = 1 by omega, List.drop_one]
  · next hc =>
    simp only [List.length_append, List.length_singleton] at hc
    rw [show h.length + 1 - 20 = 0 by omega, List.drop_zero]

theorem foldl_pushSnap (snaps : List Snapshot) :
    ∀ h : List Snapshot, h.length ≤ MAX_UNDO_STEPS →
      snaps.foldl pushSnap h =
        (h ++ snaps).drop (h.length + snaps.length - MAX_UNDO_STEPS) := by
  induction snaps with
  | nil =>
    intro h hle
    unfold MAX_UNDO_STEPS at *
    simp [Nat.sub_eq_zero_of_le hle]
  | cons a rest ih =>
    intro h hle
    have hd1 : h.length + 1 - MAX_UNDO_STEPS ≤ (h ++ [a]).length := by
      simp only [List.length_append, List.length_singleton]
      omega
    rw [List.foldl_cons, ih (pushSnap h a) (pushSnap_length_le h a hle),
        pushSnap_eq_drop h a hle, ← List.drop_append_of_le_length hd1, List.drop_drop]
    rw [List.append_assoc, List.singleton_append]
    congr 1
    simp only [List.length_drop, List.length_append, List.length_singleton,
      List.length_cons, List.length_nil]
    unfold MAX_UNDO_STEPS at *
    omega

/-! ### Helper lemmas about the event handlers -/

theorem handleMouseMove_history (pt : Pt) (s : CompState) :
    (handleMouseMove pt s).history = s.history := by
  unfold handleMouseMove
  repeat' split
  all_goals rfl

theorem handleMouseMove_isSome (pt : Pt) (s : CompState) :
    (handleMouseMove pt s).fabricCanvas.isSome = s.fabricCanvas.isSome := by
  unfold handleMouseMove
  repeat' split
  all_goals simp_all

theorem handleMouseDown_history (p : Props) (pt : Pt) (s : CompState) :
    (handleMouseDown p pt s).history = s.history := by
  unfold handleMouseDown
  repeat' split
  all_goals rfl

theorem handleMouseDown_isSome (p : Props) (pt : Pt) (s : CompState) :
    (handleMouseDown p pt s).fabricCanvas.isSome = s.fabricCanvas.isSome := by
  unfold handleMouseDown
  repeat' split
  all_goals simp_all

theorem runMoves_cons (a : Pt) (rest : List Pt) (s : CompState) :
    runMoves (a :: rest) s = runMoves rest (handleMouseMove a s) := rfl

theorem runMoves_history (moves : List Pt) :
    ∀ s : CompState, (runMoves moves s).history = s.history := by
  induction moves with
  | nil => intro s; rfl
  | cons a rest ih =>
    intro s
    rw [runMoves_cons, ih, handleMouseMove_history]

theorem runMoves_isSome (moves : List Pt) :
    ∀ s : CompState, (runMoves moves s).fabricCanvas.isSome = s.fabricCanvas.isSome := by
  induction moves with
  | nil => intro s; rfl
  | cons a rest ih =>
    intro s
    rw [runMoves_cons, ih, handleMouseMove_isSome]

theorem saveState_history (s : CompState) (c : Canvas) (hc : s.fabricCanvas = some c) :
    (saveState s).history = pushSnap s.history c.toJSON := by
  unfold saveState
  rw [hc]

theorem updateCanvasView_history_eq (p : Props) (cW cH : ℚ) (s : CompState) :
    (updateCanvasView p cW cH s).history = s.history := by
  unfold updateCanvasView
  cases s.fabricCanvas <;> rfl

theorem undo_len_le_one (p : Props) (cW cH : ℚ) (s : CompState)
    (h1 : ¬ 1 < s.history.length) : undo p cW cH s = s := by
  unfold undo
  cases hcv : s.fabricCanvas with
  | none => rfl
  | some c => simp [h1]

theorem brushGesture_history (p : Props) (points : List Pt) (s : CompState) :
    (brushGesture p points s).history = s.history := by
  unfold brushGesture
  cases s.fabricCanvas <;> rfl

/-- Evaluation of the mount sequence. -/
theorem mount_eval (p : Props) (cW cH : ℚ) :
    mount p cW cH =
      ⟨some ⟨(computeSurfaceSize p.aspectW p.aspectH cW cH).1,
         (computeSurfaceSize p.aspectW p.aspectH cW cH).2,
         p.backgroundColor, p.backgroundImage, []⟩,
       [⟨[], p.backgroundColor, p.backgroundImage⟩], false, none, false⟩ := rfl

/-- Running the pointer-moves of an active gesture only rewrites the single in-progress
shape at the end of the display list. -/
theorem runMoves_gesture (moves : List Pt) :
    ∀ (w h : ℚ) (bgc : String) (bgi : Option String) (hist : List Snapshot)
      (start : Pt) (sh : FShape),
      runMoves moves ⟨some ⟨w, h, bgc, bgi, [sh]⟩, hist, true, some start, true⟩ =
        ⟨some ⟨w, h, bgc, bgi, [moves.foldl (fun a q => updateShape start q a) sh]⟩,
         hist, true, some start, true⟩ := by
  induction moves with
  | nil => intro w h bgc bgi hist start sh; rfl
  | cons m rest ih =>
    intro w h bgc bgi hist start sh
    rw [runMoves_cons]
    have hstep :
        handleMouseMove m ⟨some ⟨w, h, bgc, bgi, [sh]⟩, hist, true, some start, true⟩ =
          ⟨some ⟨w, h, bgc, bgi, [updateShape start m sh]⟩, hist, true, some start,
            true⟩ := rfl
    rw [hstep, ih, List.foldl_cons]

/-- Evaluation of `handleMouseDown` on an idle state whose canvas has an empty display
list, for a tool whose `switch` case builds a shape. -/
theorem handleMouseDown_eval (p : Props) (start : Pt) (w h : ℚ) (bgc : String)
    (bgi : Option String) (hist : List Snapshot) (sh : FShape)
    (hsh : mkShape p start = some sh) :
    handleMouseDown p start ⟨some ⟨w, h, bgc, bgi, []⟩, hist, false, none, false⟩ =
      ⟨some ⟨w, h, bgc, bgi, [sh]⟩, hist, true, some start, true⟩ := by
  unfold handleMouseDown
  simp [hsh]

/-- A non-brush tool always builds a shape on pointer-down. -/
theorem mkShape_isSome (p : Props) (pt : Pt) (htool : p.tool ≠ .brush) :
    ∃ sh, mkShape p pt = some sh := by
  cases ht : p.tool with
  | brush => exact absurd ht htool
  | rectangle =>
    refine ⟨.rect pt.x pt.y .left .top 0 0 p.strokeColor p.fillColor p.brushSize, ?_⟩
    unfold mkShape
    rw [ht]
  | circle =>
    refine ⟨.ellipse pt.x pt.y .left .top 0 0 p.strokeColor p.fillColor p.brushSize, ?_⟩
    unfold mkShape
    rw [ht]
  | arrow =>
    refine ⟨.arrowGroup pt.x pt.y pt.x pt.y pt.x pt.y (p.brushSize * 3) (p.brushSize * 3)
      ⟨-1, 0⟩ p.strokeColor p.brushSize, ?_⟩
    unfold mkShape
    rw [ht]

/-- The full first-stroke-then-undo scenario on a freshly mounted canvas returns the
mounted state exactly. -/
theorem scenario_undo (p : Props) (cW cH : ℚ) (start : Pt) (moves : List Pt)
    (htool : p.tool ≠ .brush) :
    undo p cW cH (shapeGesture p start moves (mount p cW cH)) = mount p cW cH := by
  obtain ⟨sh0, hsh0⟩ := mkShape_isSome p start htool
  rw [mount_eval]
  unfold shapeGesture
  rw [handleMouseDown_eval p start _ _ _ _ _ sh0 hsh0, runMoves_gesture]
  unfold handleMouseUp saveState
  simp only []
  unfold undo
  simp only []
  rfl

end DrawingCanvas

namespace DrawingCanvas

/-! ### Claim theorems -/

/-- C3: the history never exceeds its fixed capacity `MAX_UNDO_STEPS = 20`: starting from
an empty history, pushing the `N` snapshots of `snaps` with `N > 20` leaves exactly the
last 20 of them, i.e. the result is `snaps.drop (N - 20)` of length 20 — the oldest
`N - 20` snapshots have been evicted oldest-first. -/
theorem history_capacity (snaps : List Snapshot)
    (hN : MAX_UNDO_STEPS < snaps.length) :
    snaps.foldl pushSnap [] = snaps.drop (snaps.length - MAX_UNDO_STEPS) ∧
    (snaps.foldl pushSnap []).length = MAX_UNDO_STEPS := by
  have h := foldl_pushSnap snaps [] (by simp)
  simp only [List.nil_append, List.length_nil, Nat.zero_add] at h
  refine ⟨h, ?_⟩
  rw [h, List.length_drop]
  unfold MAX_UNDO_STEPS at *
  omega

/-- Witness for `history_capacity`: pushing 21 concrete snapshots leaves 20 entries. -/
theorem history_capacity_witness :
    MAX_UNDO_STEPS < (snapshotSeq 21).length ∧
    ((snapshotSeq 21).foldl pushSnap []).length = MAX_UNDO_STEPS :=
  ⟨by decide, (history_capacity (snapshotSeq 21) (by decide)).2⟩

/-- C4: for positive aspect numbers `a`, `b` and a positive `W × H` container,
`computeSurfaceSize` returns a box of exactly the target ratio (`w * b = h * a`, an exact
rational identity) that fits in the container, with equality on at least one axis: the
height is clamped to `H` when `W/H` exceeds `a/b` (equivalently `H * a < W * b`) and the
width is clamped to `W` otherwise; a zero-size container yields the zero-size box. -/
theorem computeSurfaceSize_spec (a b W H : ℚ) (ha : 0 < a) (hb : 0 < b)
    (hW : 0 < W) (hH : 0 < H) :
    (computeSurfaceSize a b W H).1 * b = (computeSurfaceSize a b W H).2 * a ∧
    (computeSurfaceSize a b W H).1 ≤ W ∧
    (computeSurfaceSize a b W H).2 ≤ H ∧
    ((computeSurfaceSize a b W H).1 = W ∨ (computeSurfaceSize a b W H).2 = H) ∧
    (H * a < W * b → (computeSurfaceSize a b W H).2 = H) ∧
    (W * b ≤ H * a → (computeSurfaceSize a b W H).1 = W) ∧
    computeSurfaceSize a b 0 0 = (0, 0) := by
  have hzero : computeSurfaceSize a b 0 0 = (0, 0) := by
    simp [computeSurfaceSize]
  have hform : computeSurfaceSize a b W H =
      if H < W * b / a then (H * (a / b), H) else (W, W * b / a) := by
    unfold computeSurfaceSize
    rw [div_div_eq_mul_div]
  rw [hform]
  by_cases hc : H < W * b / a
  · rw [if_pos hc]
    have hc' : H * a < W * b := (lt_div_iff₀ ha).mp hc
    refine ⟨?_, ?_, le_refl H, Or.inr rfl, fun _ => rfl, ?_, hzero⟩
    · show H * (a / b) * b = H * a
      rw [mul_assoc, div_mul_cancel₀ a hb.ne']
    · show H * (a / b) ≤ W
      rw [← mul_div_assoc, div_le_iff₀ hb]
      nlinarith
    · intro hcon
      exact absurd hc' (not_lt.mpr hcon)
  · rw [if_neg hc]
    have hc' : W * b ≤ H * a := (div_le_iff₀ ha).mp (not_lt.mp hc)
    refine ⟨?_, le_refl W, not_lt.mp hc, Or.inl rfl, ?_, fun _ => rfl, hzero⟩
    · show W * b = W * b / a * a
      rw [div_mul_cancel₀ _ ha.ne']
    · intro hcon
      exact absurd hc' (not_le.mpr hcon)

/-- Witness for `computeSurfaceSize_spec`: aspect 16:9 in a 100 × 100 container gives a
100 × 56.25 surface of exact ratio 16:9. -/
theorem computeSurfaceSize_spec_witness :
    (0 : ℚ) < 16 ∧ (0 : ℚ) < 9 ∧ (0 : ℚ) < 100 ∧
    (computeSurfaceSize 16 9 100 100).1 * 9 = (computeSurfaceSize 16 9 100 100).2 * 16 ∧
    computeSurfaceSize 16 9 100 100 = (100, 225 / 4) := by
  have h := computeSurfaceSize_spec 16 9 100 100 (by norm_num) (by norm_num)
    (by norm_num) (by norm_num)
  exact ⟨by norm_num, by norm_num, by norm_num, h.1, by norm_num [computeSurfaceSize]⟩

/-- C2: when the history holds exactly one entry, `undo` is a complete no-op — the
returned state equals the input state, so the surface content and the history length are
unchanged, repeating `undo` changes nothing (idempotence), and the last remaining entry is
never removed. -/
theorem undo_single_entry (p : Props) (cW cH : ℚ) (s : CompState)
    (h1 : s.history.length = 1) :
    undo p cW cH s = s := by
  have hne : ¬ 1 < s.history.length := by omega
  unfold undo
  cases hcv : s.fabricCanvas with
  | none => rfl
  | some c => simp [hne]

/-- Witness for `undo_single_entry` at the concrete one-entry state `sOne`. -/
theorem undo_single_entry_witness :
    sOne.history.length = 1 ∧ undo pRect 100 100 sOne = sOne :=
  ⟨by decide, undo_single_entry pRect 100 100 sOne (by decide)⟩

/-- C10: with no canvas mounted (`fabricCanvasRef.current` null, e.g. before mount or
after dispose), the three public operations are total no-ops: `exportImage` returns the
empty string and `clear` and `undo` return the state unchanged — in particular the history
is unchanged — and, being total functions, nothing is thrown. -/
theorem ops_without_canvas (p : Props) (cW cH : ℚ) (s : CompState)
    (hc : s.fabricCanvas = none) :
    exportImage s = .emptyString ∧ clear p cW cH s = s ∧ undo p cW cH s = s := by
  refine ⟨?_, ?_, ?_⟩ <;> simp [exportImage, clear, undo, hc]

/-- Witness for `ops_without_canvas` at the canvas-less state `sNoCanvas`. -/
theorem ops_without_canvas_witness :
    sNoCanvas.fabricCanvas = none ∧ exportImage sNoCanvas = .emptyString :=
  ⟨by decide, (ops_without_canvas pRect 100 100 sNoCanvas (by decide)).1⟩

/-- C1 (code-bug evidence): for the shape tools the claim holds — the pointer-down and
every prefix of the pointer-move sequence leave the history exactly as it was, and the
pointer-up transition performs the gesture's single `pushSnap`, growing the length by
exactly one below capacity.  For brush gestures, however, the code pushes nothing at all:
`canvas.on('path:created', saveState)` (line 301) sits inside the effect that returns
early when the tool is `brush` (line 197), so the handler the code's own comment intends
for free drawing is never registered in brush mode and a complete brush stroke leaves the
history unchanged — at the concrete failing input, a brush stroke on the one-entry state
`sOne` leaves one entry where the claim requires two. -/
theorem gesture_one_push (p : Props) (start : Pt) (moves : List Pt) (s : CompState)
    (c : Canvas) (hc : s.fabricCanvas = some c) (_htool : p.tool ≠ .brush) :
    (handleMouseDown p start s).history = s.history ∧
    (∀ n : ℕ, (runMoves (moves.take n) (handleMouseDown p start s)).history =
      s.history) ∧
    (∃ snap, (shapeGesture p start moves s).history = pushSnap s.history snap) ∧
    (s.history.length < MAX_UNDO_STEPS →
      (shapeGesture p start moves s).history.length = s.history.length + 1) ∧
    (∀ pts, (brushGesture p pts s).history = s.history) ∧
    (brushGesture pBrush [⟨0, 0⟩, ⟨5, 5⟩] sOne).history.length = 1 := by
  have hdownh := handleMouseDown_history p start s
  have hmoves : ∀ n : ℕ,
      (runMoves (moves.take n) (handleMouseDown p start s)).history = s.history := by
    intro n
    rw [runMoves_history, hdownh]
  have hsome : ((runMoves moves (handleMouseDown p start s)).fabricCanvas).isSome =
      true := by
    rw [runMoves_isSome, handleMouseDown_isSome, hc]
    rfl
  obtain ⟨c', hc'⟩ := Option.isSome_iff_exists.mp hsome
  have hmid : (runMoves moves (handleMouseDown p start s)).history = s.history := by
    rw [runMoves_history, hdownh]
  have hup : (shapeGesture p start moves s).history = pushSnap s.history c'.toJSON := by
    unfold shapeGesture handleMouseUp
    have hcs : ({ runMoves moves (handleMouseDown p start s) with
        isDrawing := false, currentShape := false, startPoint := none } :
        CompState).fabricCanvas = some c' := hc'
    rw [saveState_history _ c' hcs]
    show pushSnap (runMoves moves (handleMouseDown p start s)).history c'.toJSON = _
    rw [hmid]
  refine ⟨hdownh, hmoves, ⟨c'.toJSON, hup⟩, ?_, fun pts => brushGesture_history p pts s,
    rfl⟩
  intro hlen
  rw [hup, pushSnap_length _ _ (le_of_lt hlen)]
  unfold MAX_UNDO_STEPS at *
  omega

/-- Witness for `gesture_one_push`: a one-move rectangle gesture on the concrete one-entry
state `sOne` grows the history to exactly two entries. -/
theorem gesture_one_push_witness :
    sOne.fabricCanvas = some canvasW ∧ pRect.tool ≠ .brush ∧
    sOne.history.length < MAX_UNDO_STEPS ∧
    (shapeGesture pRect ⟨0, 0⟩ [⟨5, 5⟩] sOne).history.length =
      sOne.history.length + 1 := by
  have h := gesture_one_push pRect ⟨0, 0⟩ [⟨5, 5⟩] sOne canvasW rfl (by decide)
  exact ⟨rfl, by decide, by decide, h.2.2.2.1 (by decide)⟩

/-- C6 (amended): with more than one history entry, `undo` pops the top entry and
restores the surface from the new top entry `snap`: the history becomes `pre` and the
canvas objects become `snap.objects`, with the dimensions and background re-applied from
the current props by the `updateCanvasView` call in the `loadFromJSON` callback.  In
particular, `undo` immediately after the first committed shape-tool stroke on a freshly
mounted canvas restores the pre-stroke, background-only state exactly (the whole
component state equals the mounted state).  After a first brush stroke, however, no
snapshot was pushed (the `path:created` registration is unreachable in brush mode), so
`undo` is a no-op that leaves the stroke on the surface. -/
theorem undo_pops (p : Props) (cW cH : ℚ) (s : CompState) (c : Canvas)
    (pre : List Snapshot) (snap top : Snapshot)
    (hc : s.fabricCanvas = some c) (hh : s.history = pre ++ [top])
    (hpre : pre.getLast? = some snap) :
    (undo p cW cH s).history = pre ∧
    (undo p cW cH s).fabricCanvas = some
      ⟨(computeSurfaceSize p.aspectW p.aspectH cW cH).1,
       (computeSurfaceSize p.aspectW p.aspectH cW cH).2,
       p.backgroundColor, p.backgroundImage, snap.objects⟩ ∧
    (p.tool ≠ .brush → ∀ (start : Pt) (moves : List Pt),
      undo p cW cH (shapeGesture p start moves (mount p cW cH)) = mount p cW cH) ∧
    (∀ points : List Pt,
      undo p cW cH (brushGesture p points (mount p cW cH)) =
        brushGesture p points (mount p cW cH)) := by
  have hprene : pre ≠ [] := by
    intro he
    rw [he] at hpre
    simp at hpre
  have hlen2 : 1 < (pre ++ [top]).length := by
    simp only [List.length_append, List.length_singleton]
    have := List.length_pos.mpr hprene
    omega
  have hundo : undo p cW cH s = updateCanvasView p cW cH
      ⟨some ⟨c.width, c.height, snap.bgColor, snap.bgImage, snap.objects⟩,
       pre, s.isDrawing, s.startPoint, s.currentShape⟩ := by
    unfold undo
    rw [hc]
    simp [hh, hlen2, List.dropLast_concat, hpre]
    intro he
    rw [he] at hpre
    simp at hpre
  refine ⟨?_, ?_, fun ht start moves => scenario_undo p cW cH start moves ht, ?_⟩
  · rw [hundo, updateCanvasView_history_eq]
  · rw [hundo]
    rfl
  · intro points
    apply undo_len_le_one
    rw [brushGesture_history, mount_eval]
    simp

/-- Witness for `undo_pops` at the concrete two-entry state `sTwo`. -/
theorem undo_pops_witness :
    sTwo.fabricCanvas = some canvasW ∧ sTwo.history = [snapA] ++ [snapB] ∧
    [snapA].getLast? = some snapA ∧ (undo pRect 100 100 sTwo).history = [snapA] :=
  ⟨rfl, rfl, rfl,
    (undo_pops pRect 100 100 sTwo canvasW [snapA] snapA snapB rfl rfl rfl).1⟩

/-- C6 counterexample: after the first committed brush stroke on a freshly mounted canvas
(props `pBrush`, stroke points (0,0) and (5,5)), no snapshot was pushed — the history
still holds its single mount entry — so `undo()` is a complete no-op: the stroke's
`fabric.Path` object remains on the surface instead of the background-only surface the
claim requires after an undo of the first committed stroke. -/
theorem undo_after_brush_stroke_cex :
    (brushGesture pBrush [⟨0, 0⟩, ⟨5, 5⟩] (mount pBrush 100 100)).history.length = 1 ∧
    undo pBrush 100 100 (brushGesture pBrush [⟨0, 0⟩, ⟨5, 5⟩] (mount pBrush 100 100)) =
      brushGesture pBrush [⟨0, 0⟩, ⟨5, 5⟩] (mount pBrush 100 100) ∧
    ∃ c, (brushGesture pBrush [⟨0, 0⟩, ⟨5, 5⟩] (mount pBrush 100 100)).fabricCanvas =
        some c ∧
      c.objects = [.path "#000000" 4 [⟨0, 0⟩, ⟨5, 5⟩]] ∧ c.objects ≠ [] := by
  refine ⟨rfl, ?_, ⟨_, rfl, rfl, by simp⟩⟩
  apply undo_len_le_one
  rw [brushGesture_history, mount_eval]
  simp

/-- Evaluation of `clear` on a state with a mounted canvas. -/
theorem clear_eval (p : Props) (cW cH : ℚ) (s : CompState) (c : Canvas)
    (hc : s.fabricCanvas = some c) :
    clear p cW cH s =
      ⟨some ⟨(computeSurfaceSize p.aspectW p.aspectH cW cH).1,
         (computeSurfaceSize p.aspectW p.aspectH cW cH).2,
         p.backgroundColor, p.backgroundImage, []⟩,
       pushSnap s.history ⟨[], p.backgroundColor, p.backgroundImage⟩,
       s.isDrawing, s.startPoint, s.currentShape⟩ := by
  unfold clear
  rw [hc]
  rfl

/-- C5 counterexample: calling `clear()` on the concrete one-entry state `sOne` leaves a
two-entry history, not the single fresh entry the claim requires — `clear` pushes the
cleared snapshot on top of the existing history instead of resetting it. -/
theorem clear_not_reset_cex :
    (clear pRect 100 100 sOne).history = [snapA, ⟨[], "#ffffff", none⟩] ∧
    ¬ (clear pRect 100 100 sOne).history.length = 1 := by
  rw [clear_eval pRect 100 100 sOne canvasW rfl]
  constructor <;> decide

/-- C5 (amended): after `clear()`, the surface is the background-only composite and a
subsequent `exportImage()` returns exactly the current BackgroundSpec composited alone,
with no foreground content; the history, however, is not reset to one entry — it receives
one more (capacity-bounded) push whose snapshot is the background-only state, on top of
the entries already present. -/
theorem clear_spec (p : Props) (cW cH : ℚ) (s : CompState) (c : Canvas)
    (hc : s.fabricCanvas = some c) :
    (clear p cW cH s).history =
      pushSnap s.history ⟨[], p.backgroundColor, p.backgroundImage⟩ ∧
    exportImage (clear p cW cH s) = .png
      ⟨(computeSurfaceSize p.aspectW p.aspectH cW cH).1,
       (computeSurfaceSize p.aspectW p.aspectH cW cH).2,
       p.backgroundColor, p.backgroundImage, []⟩ := by
  rw [clear_eval p cW cH s c hc]
  exact ⟨rfl, rfl⟩

/-- Witness for `clear_spec` at the concrete state `sOne` with the background-changed
props `pNewBg`. -/
theorem clear_spec_witness :
    sOne.fabricCanvas = some canvasW ∧
    (clear pNewBg 100 100 sOne).history = pushSnap sOne.history ⟨[], "#112233", none⟩ :=
  ⟨rfl, (clear_spec pNewBg 100 100 sOne canvasW rfl).1⟩

/-- C7 counterexample: changing the background color (props `pRect` → `pNewBg`) re-runs
`updateCanvasView` on the concrete two-entry state `sTwo`; the history still has two
entries afterwards — it is not reset to exactly one entry. -/
theorem background_change_cex :
    pNewBg.backgroundColor ≠ pRect.backgroundColor ∧
    (updateCanvasView pNewBg 100 100 sTwo).history = sTwo.history ∧
    sTwo.history.length = 2 ∧
    ¬ (updateCanvasView pNewBg 100 100 sTwo).history.length = 1 := by
  refine ⟨by decide, updateCanvasView_history_eq pNewBg 100 100 sTwo, by decide, ?_⟩
  rw [updateCanvasView_history_eq]
  decide

/-- C7 (amended): when the BackgroundSpec props change, the component re-runs
`updateCanvasView`, which applies the new background color and image to the canvas
(keeping the committed objects) but leaves the history untouched — the history is not
reset to a single entry. -/
theorem background_change_spec (p : Props) (cW cH : ℚ) (s : CompState) (c : Canvas)
    (hc : s.fabricCanvas = some c) :
    (updateCanvasView p cW cH s).history = s.history ∧
    (updateCanvasView p cW cH s).fabricCanvas = some
      ⟨(computeSurfaceSize p.aspectW p.aspectH cW cH).1,
       (computeSurfaceSize p.aspectW p.aspectH cW cH).2,
       p.backgroundColor, p.backgroundImage, c.objects⟩ := by
  refine ⟨updateCanvasView_history_eq p cW cH s, ?_⟩
  unfold updateCanvasView
  rw [hc]

/-- Witness for `background_change_spec` at the concrete state `sTwo` and props
`pNewBg`. -/
theorem background_change_spec_witness :
    sTwo.fabricCanvas = some canvasW ∧
    (updateCanvasView pNewBg 100 100 sTwo).history = sTwo.history :=
  ⟨rfl, (background_change_spec pNewBg 100 100 sTwo canvasW rfl).1⟩

/-- C9 counterexample: a stray pointer-up on the concrete idle one-entry state `sOne`
(no matching pointer-down: `isDrawing = false`, no current shape, no start point) still
pushes a duplicate snapshot — the history grows from one entry to two, contradicting
"the History does not grow". -/
theorem stray_pointer_up_cex :
    sOne.isDrawing = false ∧ sOne.currentShape = false ∧ sOne.startPoint = none ∧
    sOne.history.length = 1 ∧ (handleMouseUp sOne).history.length = 2 := by
  refine ⟨rfl, rfl, rfl, rfl, ?_⟩
  decide

/-- C9 (amended): a pointer-up with no matching pointer-down leaves the surface (canvas)
unchanged and performs no drawing work, but it is not fully ignored: `handleMouseUp`
unconditionally calls `saveState`, so a duplicate snapshot of the current surface is
pushed and the (capacity-bounded) history grows by one entry. -/
theorem stray_pointer_up_spec (s : CompState) (c : Canvas)
    (hd : s.isDrawing = false) (hcs : s.currentShape = false)
    (hsp : s.startPoint = none) (hc : s.fabricCanvas = some c) :
    handleMouseUp s = { s with history := pushSnap s.history c.toJSON } ∧
    (handleMouseUp s).fabricCanvas = s.fabricCanvas := by
  have hs : (⟨s.fabricCanvas, s.history, false, none, false⟩ : CompState) = s := by
    obtain ⟨fc, hist, d, sp, cs⟩ := s
    dsimp only at hd hcs hsp ⊢
    rw [hd, hcs, hsp]
  have h1 : handleMouseUp s = saveState s := by
    unfold handleMouseUp
    rw [hs]
  have h2 : saveState s = { s with history := pushSnap s.history c.toJSON } := by
    unfold saveState
    rw [hc]
  rw [h1, h2]
  exact ⟨rfl, rfl⟩

/-- Witness for `stray_pointer_up_spec` at the concrete idle state `sOne`. -/
theorem stray_pointer_up_spec_witness :
    sOne.isDrawing = false ∧ sOne.fabricCanvas = some canvasW ∧
    handleMouseUp sOne = { sOne with history := pushSnap sOne.history canvasW.toJSON } :=
  ⟨rfl, rfl, (stray_pointer_up_spec sOne canvasW rfl rfl rfl rfl).1⟩

/-- C8 counterexample: for the concrete arrow gesture from (0,0) to (100,0) with brush
size 2 (`pArrow`), the code's rendered arrow is a line plus a `fabric.Triangle` head — it
is not a line plus two wing segments of length `max(10, brushSize * 2.5)` drawn from the
end point, so the claimed rendering (`arrowClaim`) is false at this input. -/
theorem arrow_wings_cex : ¬ arrowClaim pArrow ⟨0, 0⟩ ⟨100, 0⟩ := by
  rintro ⟨w1, w2, hren, -, -⟩
  have hlen := congrArg List.length hren
  simp [arrowPrims, arrowShapeAt, mkShape, updateShape, renderShape, pArrow] at hlen

/-- C8 (amended): the rendered arrow consists of the main line from `start` to `e` plus a
triangular head of width and height `brushSize * 3` centered at the end point, rotated to
`atan2(dy, dx) + 90` degrees (represented by the direction vector `e - start`).  For the
horizontal arrow (0,0) → (100,0) with brush size 2 (head size 6, direction (100,0),
`r = 100` with `r² = dx² + dy²`), the head's three vertices are (103, 0), (97, -3) and
(97, 3): the tip lies on the x-axis and reflecting the vertices about the x-axis maps the
vertex list to itself with the two base (wing) vertices exchanged — the head is symmetric
about the x-axis. -/
theorem arrow_render_spec (p : Props) (start e : Pt) (ht : p.tool = .arrow) :
    arrowPrims p start e =
      [.seg start e p.strokeColor p.brushSize,
       .tri e (p.brushSize * 3) (p.brushSize * 3) ⟨e.x - start.x, e.y - start.y⟩
         p.strokeColor] ∧
    triVertices ⟨100, 0⟩ 6 6 ⟨100, 0⟩ 100 = [⟨103, 0⟩, ⟨97, -3⟩, ⟨97, 3⟩] ∧
    ((triVertices ⟨100, 0⟩ 6 6 ⟨100, 0⟩ 100).map fun q => (⟨q.x, -q.y⟩ : Pt)) =
      [⟨103, 0⟩, ⟨97, 3⟩, ⟨97, -3⟩] ∧
    (100 : ℚ) ^ 2 = 100 ^ 2 + 0 ^ 2 := by
  have hv : triVertices ⟨100, 0⟩ 6 6 ⟨100, 0⟩ 100 = [⟨103, 0⟩, ⟨97, -3⟩, ⟨97, 3⟩] := by
    unfold triVertices rotByDir ptAdd
    norm_num
  refine ⟨?_, hv, ?_, by norm_num⟩
  · unfold arrowPrims arrowShapeAt mkShape
    rw [ht]
    rfl
  · rw [hv]
    norm_num

/-- Witness for `arrow_render_spec` at the concrete props `pArrow` and the horizontal
gesture (0,0) → (100,0). -/
theorem arrow_render_spec_witness :
    pArrow.tool = .arrow ∧
    arrowPrims pArrow ⟨0, 0⟩ ⟨100, 0⟩ =
      [.seg ⟨0, 0⟩ ⟨100, 0⟩ "#000000" 2, .tri ⟨100, 0⟩ 6 6 ⟨100, 0⟩ "#000000"] := by
  refine ⟨rfl, ?_⟩
  rw [(arrow_render_spec pArrow ⟨0, 0⟩ ⟨100, 0⟩ rfl).1]
  norm_num [pArrow]

end DrawingCanvas
